import Mathlib

/-!
# Verification of the PNG decoder against its specification

Shallow embedding of the Go PNG decoder (package `png.adpollak.net`):
the chunk framing reader (`readChunk`), the datastream assembler
(`ParseChunkStream`), chunk handlers (`HandleIHDR`, `HandleIDAT`,
`ParseGAMA`), pixel reconstruction (`CreateImage`, `handleGreyscale`
together with Go's `image.Gray`), and the CRC-32 checksum used by the
framing reader.  Bytes are modelled as `Nat` (values kept below 256 by
construction of the streams), byte streams as `List Nat`, machine
`uint32` arithmetic as `Nat` with explicit `% 2^32` reasoning, Go
errors and panics as `Except Err`.

The external zlib inflater and the floating-point gamma transfer
function are parameters of the embedded pipeline (`inflate`,
`gApply`): the repository treats both as black boxes and no claim
settled here depends on their values, only on which bytes reach them.
-/

set_option maxHeartbeats 2000000
set_option maxRecDepth 100000

namespace PngProof

/-! ## CRC-32 (standard reflected polynomial 0xEDB88320, as in zlib
and in the `github.com/snksoft/crc` configuration `crc.CRC32` used by
`readChunk`). -/

/-- One bit step of the (reflected) CRC-32 division. -/
def crcStep (c : Nat) : Nat :=
  if c % 2 = 1 then 0xEDB88320 ^^^ (c / 2) else c / 2

/-- Entry of the CRC-32 lookup table: eight bit steps applied to the index. -/
def crcTableEntry (n : Nat) : Nat :=
  crcStep (crcStep (crcStep (crcStep (crcStep (crcStep (crcStep (crcStep n)))))))

/-- Table-driven CRC-32 update by one byte. -/
def crcUpdate (c b : Nat) : Nat :=
  crcTableEntry ((c ^^^ b) % 256) ^^^ (c / 256)

/-- CRC-32 register run over a byte list. -/
def crcLoop : Nat → List Nat → Nat
  | c, [] => c
  | c, b :: bs => crcLoop (crcUpdate c b) bs

/-- CRC-32 of a byte list: initial register 0xFFFFFFFF, final complement. -/
def crc32 (data : List Nat) : Nat :=
  crcLoop 0xFFFFFFFF data ^^^ 0xFFFFFFFF

/-! ## Chunk type registry (`internal/chunk/chunks.go`) -/

/-- Go `chunk.ChunkType`: a wrapper around the 4-byte ASCII tag
(`slug`), modelled as a byte list. -/
structure ChunkType where
  slug : List Nat
deriving DecidableEq, Repr

/-- Go `chunk.Unknown`: the distinguished value for unrecognized tags
(empty slug). -/
def Unknown : ChunkType := ⟨[]⟩

/-- Go `chunk.ChunkIHDR` (tag "IHDR"). -/
def ChunkIHDR : ChunkType := ⟨[73, 72, 68, 82]⟩

/-- Go `chunk.ChunkPLTE` (tag "PLTE"). -/
def ChunkPLTE : ChunkType := ⟨[80, 76, 84, 69]⟩

/-- Go `chunk.ChunkIDAT` (tag "IDAT"). -/
def ChunkIDAT : ChunkType := ⟨[73, 68, 65, 84]⟩

/-- Go `chunk.ChunkIEND` (tag "IEND"). -/
def ChunkIEND : ChunkType := ⟨[73, 69, 78, 68]⟩

/-- Go `chunk.ChunkcHRM` (tag "cHRM"). -/
def ChunkcHRM : ChunkType := ⟨[99, 72, 82, 77]⟩

/-- Go `chunk.ChunkgAMA` (tag "gAMA"). -/
def ChunkgAMA : ChunkType := ⟨[103, 65, 77, 65]⟩

/-- Go `chunk.ChunkiCCP` (tag "iCCP"). -/
def ChunkiCCP : ChunkType := ⟨[105, 67, 67, 80]⟩

/-- Go `chunk.ChunksBIT` (tag "sBIT"). -/
def ChunksBIT : ChunkType := ⟨[115, 66, 73, 84]⟩

/-- Go `chunk.ChunksRGB` (tag "sRGB"). -/
def ChunksRGB : ChunkType := ⟨[115, 82, 71, 66]⟩

/-- Go `chunk.ChunkbKGD` (tag "bKGD"). -/
def ChunkbKGD : ChunkType := ⟨[98, 75, 71, 68]⟩

/-- Go `chunk.ChunkhIST` (tag "hIST"). -/
def ChunkhIST : ChunkType := ⟨[104, 73, 83, 84]⟩

/-- Go `chunk.ChunktRNS` (tag "tRNS"). -/
def ChunktRNS : ChunkType := ⟨[116, 82, 78, 83]⟩

/-- Go `chunk.ChunkpHYs` (tag "pHYs"). -/
def ChunkpHYs : ChunkType := ⟨[112, 72, 89, 115]⟩

/-- Go `chunk.ChunksPLT` (tag "sPLT"). -/
def ChunksPLT : ChunkType := ⟨[115, 80, 76, 84]⟩

/-- Go `chunk.ChunktIME` (tag "tIME"). -/
def ChunktIME : ChunkType := ⟨[116, 73, 77, 69]⟩

/-- Go `chunk.ChunkiTXt` (tag "iTXt"). -/
def ChunkiTXt : ChunkType := ⟨[105, 84, 88, 116]⟩

/-- Go `chunk.ChunktEXt` (tag "tEXt"). -/
def ChunktEXt : ChunkType := ⟨[116, 69, 88, 116]⟩

/-- Go `chunk.ChunkzTXt` (tag "zTXt"). -/
def ChunkzTXt : ChunkType := ⟨[122, 84, 88, 116]⟩

/-- Go `chunk.FromString`: the switch over the eighteen known tags.
Go returns `(ChunkType, error)`; the error (`errors.New("unknown
chunk type")`, produced exactly in the default branch together with
`Unknown`) is modelled by the `Bool` component (`true` = error). -/
def FromString (s : List Nat) : ChunkType × Bool :=
  if s = ChunkIHDR.slug then (ChunkIHDR, false)
  else if s = ChunkPLTE.slug then (ChunkPLTE, false)
  else if s = ChunkIDAT.slug then (ChunkIDAT, false)
  else if s = ChunkIEND.slug then (ChunkIEND, false)
  else if s = ChunkcHRM.slug then (ChunkcHRM, false)
  else if s = ChunkgAMA.slug then (ChunkgAMA, false)
  else if s = ChunkiCCP.slug then (ChunkiCCP, false)
  else if s = ChunksBIT.slug then (ChunksBIT, false)
  else if s = ChunksRGB.slug then (ChunksRGB, false)
  else if s = ChunkbKGD.slug then (ChunkbKGD, false)
  else if s = ChunkhIST.slug then (ChunkhIST, false)
  else if s = ChunktRNS.slug then (ChunktRNS, false)
  else if s = ChunkpHYs.slug then (ChunkpHYs, false)
  else if s = ChunksPLT.slug then (ChunksPLT, false)
  else if s = ChunktIME.slug then (ChunktIME, false)
  else if s = ChunkiTXt.slug then (ChunkiTXt, false)
  else if s = ChunktEXt.slug then (ChunktEXt, false)
  else if s = ChunkzTXt.slug then (ChunkzTXt, false)
  else (Unknown, true)

/-- Go `(*Chunk).isCritical`: first slug byte in `'A'..'Z'`.  The Go
code indexes `slug[0]`, which panics on the empty slug of `Unknown`;
the panic is modelled by `none`.  (Dead code in the repository; kept
for completeness of the data model.) -/
def isCritical (c : ChunkType) : Option Bool :=
  match c.slug with
  | [] => none
  | b :: _ => some (decide (65 ≤ b ∧ b ≤ 90))

/-! ## Data model -/

/-- Go `chunk.Chunk` (`Length`, `Type`, `Data`, `Crc`); the `Type`
field is renamed `Ty` because `Type` is a Lean keyword. -/
structure Chunk where
  Length : Nat
  Ty : ChunkType
  Data : List Nat
  Crc : Nat
deriving DecidableEq, Repr

/-- Go `chunk.IHDR`. -/
structure IHDR where
  Width : Nat
  Height : Nat
  BitDepth : Nat
  ColorType : Nat
  CompressionMethod : Nat
  FilterMethod : Nat
  InterlaceMethod : Nat
deriving DecidableEq, Repr

/-- Go `chunk.GAMA`. -/
structure GAMA where
  Gamma : Nat
deriving DecidableEq, Repr

/-- Error/panic outcomes of the embedded decoder, one constructor per
error site (Go errors are strings; panics are modelled as errors). -/
inductive Err where
  | sigEOF : Err
  | sigShort : Err
  | sigMismatch : Err
  | binaryReadLength : Err
  | readTypeEOF : Err
  | unknownChunkType (tag : List Nat) : Err
  | chunkDataMismatch (n length : Nat) : Err
  | binaryReadCrc : Err
  | checksumMismatch (stored computed : Nat) : Err
  | invalidIHDRLength (len : Nat) : Err
  | gamaBadLength (len : Nat) : Err
  | zlibError : Err
  | panicSliceBounds (idatLen pixLen : Nat) : Err
  | panicNilGamma : Err
  | invalidColorType (ct : Nat) : Err
  | invalidFilterType (ft : Nat) : Err
  | outOfFuel : Err
deriving DecidableEq, Repr

/-- Big-endian 32-bit read of a byte list (Go
`binary.BigEndian.Uint32`). -/
def beU32 (bs : List Nat) : Nat :=
  bs.foldl (fun a b => a * 256 + b) 0

/-- Big-endian 4-byte encoding of a value below 2^32 (used to build
the concrete streams the theorems feed to the decoder). -/
def u32be (n : Nat) : List Nat :=
  [n / 2 ^ 24 % 256, n / 2 ^ 16 % 256, n / 2 ^ 8 % 256, n % 256]

/-! ## Chunk framing reader (`readChunk` in the decoder's main file) -/

/-- Go `(*PngDecoder).readChunk`: read the 4-byte big-endian length,
the 4-byte type tag (classified with `FromString`, aborting on its
error), exactly `length` data bytes, the stored 4-byte big-endian
checksum, then compute CRC-32 over `type ++ data` and compare.  A
successful read returns the `Chunk` and the unread remainder of the
stream.  Go's `file.Read` into the 4-byte type buffer only reports an
error when no byte at all is available; a short read leaves the
zero-initialized tail of the buffer, which the model reproduces by
padding with zero bytes. -/
def readChunk (l : List Nat) : Except Err (Chunk × List Nat) :=
  if l.length < 4 then .error .binaryReadLength else
  let length := beU32 (l.take 4)
  let l1 := l.drop 4
  if l1.length = 0 then .error .readTypeEOF else
  let readType := l1.take 4 ++ List.replicate (4 - (l1.take 4).length) 0
  let l2 := l1.drop 4
  let ct := FromString readType
  if ct.2 then .error (.unknownChunkType readType) else
  let n := min length l2.length
  if n ≠ length then .error (.chunkDataMismatch n length) else
  let chunkData := l2.take length
  let l3 := l2.drop length
  if l3.length < 4 then .error .binaryReadCrc else
  let stored := beU32 (l3.take 4)
  let l4 := l3.drop 4
  let computed := crc32 (readType ++ chunkData)
  if computed = stored then .ok (⟨length, ct.1, chunkData, computed⟩, l4)
  else .error (.checksumMismatch stored computed)

/-! ## Chunk handlers (`internal/chunk/chunks.go`) -/

/-- The `IHDR` record built by `HandleIHDR` from a 13-byte payload
(big-endian 32-bit width and height, then five single bytes). -/
def parsedIHDR (d : List Nat) : IHDR :=
  { Width := beU32 (d.take 4)
    Height := beU32 ((d.drop 4).take 4)
    BitDepth := d.getD 8 0
    ColorType := d.getD 9 0
    CompressionMethod := d.getD 10 0
    FilterMethod := d.getD 11 0
    InterlaceMethod := d.getD 12 0 }

/-- Go `chunk.HandleIHDR`: reject iff the payload is not exactly 13
bytes, otherwise parse the fields.  (No validation of the
bit-depth/color-type pairing is performed.) -/
def HandleIHDR (ck : Chunk) : Except Err IHDR :=
  if ck.Data.length ≠ 13 then .error (.invalidIHDRLength ck.Data.length)
  else .ok (parsedIHDR ck.Data)

/-- Go `chunk.ParseGAMA`: reject iff the payload is not exactly 4
bytes, otherwise read the big-endian gamma integer. -/
def ParseGAMA (data : List Nat) : Except Err GAMA :=
  if data.length ≠ 4 then .error (.gamaBadLength data.length)
  else .ok ⟨beU32 data⟩

/-! ## Datastream assembler (`ParseChunkStream`) -/

/-- The assembler's loop state: the IDAT accumulation buffer `idat`
(Go `bytes.Buffer`), the parsed header (Go zero value before an IHDR
chunk is seen), the optional gamma record (Go nil pointer as `none`),
and `idat_len`, which Go overwrites with the length of each IDAT
chunk as it arrives (so it ends up holding the length of the *last*
one). -/
structure LoopSt where
  idat : List Nat
  ihdr : IHDR
  gamma : Option GAMA
  idatLen : Nat
deriving DecidableEq, Repr

/-- The zero-initialized state at the top of `ParseChunkStream`. -/
def initSt : LoopSt :=
  ⟨[], ⟨0, 0, 0, 0, 0, 0, 0⟩, none, 0⟩

/-- The chunk-dispatch loop of `ParseChunkStream`: read a chunk, then
switch on its type — IHDR is parsed (overwriting the current header),
IDAT is appended to the accumulator (`chunk.HandleIDAT`, a plain
buffer write that cannot fail) and its length recorded, gAMA is
parsed, IEND ends the loop, and every other recognized chunk falls
through the switch and is skipped.  The Go loop has no bound; each
successful `readChunk` consumes at least 12 bytes of the finite
stream, so running the model with fuel `l.length + 1` never exhausts
the fuel (`outOfFuel` is unreachable on the streams the theorems
use). -/
def parseLoop (fuel : Nat) (l : List Nat) (st : LoopSt) : Except Err LoopSt :=
  match fuel with
  | 0 => .error .outOfFuel
  | fuel + 1 =>
    match readChunk l with
    | .error e => .error e
    | .ok (ck, rest) =>
      if ck.Ty = ChunkIHDR then
        match HandleIHDR ck with
        | .error e => .error e
        | .ok h => parseLoop fuel rest { st with ihdr := h }
      else if ck.Ty = ChunkIDAT then
        parseLoop fuel rest { st with idat := st.idat ++ ck.Data, idatLen := ck.Length }
      else if ck.Ty = ChunkgAMA then
        match ParseGAMA ck.Data with
        | .error e => .error e
        | .ok g => parseLoop fuel rest { st with gamma := some g }
      else if ck.Ty = ChunkIEND then .ok st
      else parseLoop fuel rest st

/-! ## Post-loop pipeline of `ParseChunkStream` -/

/-- The slice-trimming step of `ParseChunkStream` after inflation:
Go computes `temp := len(pixels) - idat_len` (int arithmetic) and
slices `pixels = pixels[temp:]`, keeping only the trailing
`idat_len` bytes of the inflated output; a negative `temp` is a Go
slice-bounds panic, modelled as `panicSliceBounds`. -/
def trimStage (st : LoopSt) (inflate : List Nat → Option (List Nat)) :
    Except Err (List Nat) :=
  match inflate st.idat with
  | none => .error .zlibError
  | some pixels =>
    if st.idatLen ≤ pixels.length then
      .ok (pixels.drop (pixels.length - st.idatLen))
    else .error (.panicSliceBounds st.idatLen pixels.length)

/-- Go `image.Gray` restricted to what `handleGreyscale` uses: a
rectangle anchored at the origin with `Stride = width` and a
zero-initialized `Pix` buffer of `width * height` bytes. -/
structure Gray where
  width : Nat
  height : Nat
  pix : List Nat
deriving DecidableEq, Repr

/-- Go `image.NewGray(image.Rect(0, 0, width, height))`. -/
def NewGray (width height : Nat) : Gray :=
  ⟨width, height, List.replicate (width * height) 0⟩

/-- Go `(*image.Gray).SetGray(x, y, c)`: silently ignore
out-of-bounds points, otherwise write `c` at `Pix[y*Stride + x]`. -/
def SetGray (img : Gray) (x y v : Nat) : Gray :=
  if x < img.width ∧ y < img.height then
    { img with pix := img.pix.set (y * img.width + x) v }
  else img

/-- Inner (column) loop of `handleGreyscale` for row `r`: `c` is the
current column, the second argument counts the remaining columns.
`offset >= len(pixels)` exits the loop (Go `break` of the inner
loop); otherwise the code calls `img.SetGray(r, c, pixels[offset])` —
passing the row as the `x` argument and the column as the `y`
argument of `SetGray`. -/
def greyCols (pixels : List Nat) (width r : Nat) : Nat → Nat → Gray → Gray
  | _, 0, img => img
  | c, k + 1, img =>
    let offset := r * width + c
    if pixels.length ≤ offset then img
    else greyCols pixels width r (c + 1) k (SetGray img r c (pixels.getD offset 0))

/-- Outer (row) loop of `handleGreyscale`: `r` is the current row,
the second argument counts the remaining rows. -/
def greyRows (pixels : List Nat) (width : Nat) : Nat → Nat → Gray → Gray
  | _, 0, img => img
  | r, k + 1, img => greyRows pixels width (r + 1) k (greyCols pixels width r 0 width img)

/-- Go `images.handleGreyscale`: traverse the sample buffer row-major
(`offset = r*width + c`) and write each sample into a fresh
`image.Gray`. -/
def handleGreyscale (pixels : List Nat) (width height : Nat) : Gray :=
  greyRows pixels width 0 height (NewGray width height)

/-- Go `images.CreateImage`: switch on the five color types; only
greyscale (0) builds an image, types 2/3/4/6 only log and leave the
`image.Image` interface value nil (`none`), anything else is an
error. -/
def CreateImage (pixels : List Nat) (ihdr : IHDR) : Except Err (Option Gray) :=
  if ihdr.ColorType = 0 then .ok (some (handleGreyscale pixels ihdr.Width ihdr.Height))
  else if ihdr.ColorType = 2 then .ok none
  else if ihdr.ColorType = 3 then .ok none
  else if ihdr.ColorType = 4 then .ok none
  else if ihdr.ColorType = 6 then .ok none
  else .error (.invalidColorType ihdr.ColorType)

/-- The gamma step and image creation at the end of
`ParseChunkStream`: `gamma.HandlegAMA(pixels, ihdr.BitDepth)` is
called unconditionally — when no gAMA chunk was seen, `gamma` is a
nil pointer and the method body dereferences it (`g.Gamma`), a panic
modelled as `panicNilGamma`.  When a gamma record is present,
`HandlegAMA` rewrites every byte of the buffer through the
floating-point transfer function; that float computation is external
to this discrete model and is abstracted as the parameter `gApply`
(gamma value → bit depth → sample → sample).  No claim settled here
depends on `gApply`'s values. -/
def finishStage (st : LoopSt) (pixels : List Nat)
    (gApply : Nat → Nat → Nat → Nat) : Except Err (Option Gray) :=
  match st.gamma with
  | none => .error .panicNilGamma
  | some g => CreateImage (pixels.map (gApply g.Gamma st.ihdr.BitDepth)) st.ihdr

/-- Go `(*PngDecoder).ParseChunkStream`: run the chunk loop, inflate
the accumulated IDAT buffer (the external zlib reader is the
`inflate` parameter; `none` models its error), trim, apply gamma,
build the image. -/
def ParseChunkStream (inflate : List Nat → Option (List Nat))
    (gApply : Nat → Nat → Nat → Nat) (l : List Nat) : Except Err (Option Gray) :=
  match parseLoop (l.length + 1) l initSt with
  | .error e => .error e
  | .ok st =>
    match trimStage st inflate with
    | .error e => .error e
    | .ok pixels => finishStage st pixels gApply

/-- The byte buffer as it stands when `ParseChunkStream` hands it on
past decompression (the `pixels` value after the trimming slice):
the chunk loop followed by `trimStage`. -/
def trimmedPixels (inflate : List Nat → Option (List Nat)) (l : List Nat) :
    Except Err (List Nat) :=
  match parseLoop (l.length + 1) l initSt with
  | .error e => .error e
  | .ok st => trimStage st inflate

/-- The fixed 8-byte PNG signature `89 50 4E 47 0D 0A 1A 0A`. -/
def pngSignature : List Nat := [137, 80, 78, 71, 13, 10, 26, 10]

/-- Go `(*PngDecoder).IsPng`: read 8 bytes (an empty source is a read
error, a short read a length mismatch) and compare with the
signature. -/
def IsPng (l : List Nat) : Except Err Bool :=
  if l.length = 0 then .error .sigEOF
  else if l.length < 8 then .error .sigShort
  else if l.take 8 ≠ pngSignature then .error .sigMismatch
  else .ok true

/-- Go `main`'s decode path: validate the signature, then parse the
chunk stream from the cursor position after it. -/
def decodePng (inflate : List Nat → Option (List Nat))
    (gApply : Nat → Nat → Nat → Nat) (l : List Nat) : Except Err (Option Gray) :=
  match IsPng l with
  | .error e => .error e
  | .ok _ => ParseChunkStream inflate gApply (l.drop 8)

/-- A chunk as framed on the wire with an arbitrary stored checksum:
`length(u32 BE) ++ tag ++ data ++ stored(u32 BE)`. -/
def frameWith (tag data : List Nat) (stored : Nat) : List Nat :=
  u32be data.length ++ tag ++ data ++ u32be stored

/-- A correctly checksummed wire chunk. -/
def frame (tag data : List Nat) : List Nat :=
  frameWith tag data (crc32 (tag ++ data))

/-- `data` with bit `k` of byte `i` flipped. -/
def flipBit (data : List Nat) (i k : Nat) : List Nat :=
  data.set i (data.getD i 0 ^^^ 2 ^ k)

/-! ## Scanline defiltering (spec §4.6)

Modelled from the spec: the Scanline Defiltering Engine is absent
from the repository's source — `ParseChunkStream` hands the inflated
bytes directly to pixel reconstruction and no function reverses the
per-row predictive filter — so the definitions below follow the
spec's §4.6 formulas (filter types 0–4, `Prior(x) = 0` for row 0 via
an all-zero previous row, `bpp ≥ 1` as the left-lookup distance). -/

/-- `Raw(x-bpp)`-style left lookup in a row: 0 when `x < bpp`. -/
def leftByte (row : List Nat) (bpp x : Nat) : Nat :=
  if x < bpp then 0 else row.getD (x - bpp) 0

/-- Modelled from the spec: the Paeth predictor — `p = a + b - c`,
pick whichever of `a`, `b`, `c` minimizes `|p - ·|`, ties broken in
order `a`, `b`, `c`. -/
def paeth (a b c : Nat) : Nat :=
  let p : Int := (a : Int) + (b : Int) - (c : Int)
  let pa := (p - (a : Int)).natAbs
  let pb := (p - (b : Int)).natAbs
  let pc := (p - (c : Int)).natAbs
  if pa ≤ pb ∧ pa ≤ pc then a else if pb ≤ pc then b else c

/-- Modelled from the spec: the predictor subtracted by filtering and
added back by defiltering at byte position `x`, reading the current
row `cur` (raw bytes when filtering, already-reconstructed bytes when
defiltering) and the previous reconstructed row `prior`. -/
def predByte (ft bpp : Nat) (prior cur : List Nat) (x : Nat) : Nat :=
  if ft = 0 then 0
  else if ft = 1 then leftByte cur bpp x
  else if ft = 2 then prior.getD x 0
  else if ft = 3 then (leftByte cur bpp x + prior.getD x 0) / 2
  else paeth (leftByte cur bpp x) (prior.getD x 0) (leftByte prior bpp x)

/-- Modelled from the spec: filter a raw row with rule `ft`:
`Filt(x) = Raw(x) - pred(x) (mod 256)`. -/
def filterRow (ft bpp : Nat) (prior raw : List Nat) : List Nat :=
  (List.range raw.length).map fun x =>
    (raw.getD x 0 + 256 - predByte ft bpp prior raw x) % 256

/-- Modelled from the spec: defilter loop,
`Raw(x) = Filt(x) + pred(x) (mod 256)` with `pred` reading the
already-reconstructed prefix `recon`. -/
def defilterGo (ft bpp : Nat) (prior : List Nat) : List Nat → List Nat → List Nat
  | recon, [] => recon
  | recon, f :: fs =>
    defilterGo ft bpp prior
      (recon ++ [(f + predByte ft bpp prior recon recon.length) % 256]) fs

/-- Modelled from the spec: defilter one scanline whose leading byte
is the filter type (values outside 0..4 are `InvalidFilterType`). -/
def defilterScanline (bpp : Nat) (prior : List Nat) : List Nat → Except Err (List Nat)
  | [] => .ok []
  | ft :: filt =>
    if ft ≤ 4 then .ok (defilterGo ft bpp prior [] filt)
    else .error (.invalidFilterType ft)

/-! ## Concrete test vectors used by the closed theorems -/

/-- An arbitrary instantiation of the external floating-point gamma
transfer parameter, used only to state closed theorems; every decode
path exercised with it fails before the gamma transform is applied,
so its values are never consulted. -/
def gApplyArb : Nat → Nat → Nat → Nat := fun _ _ p => p

/-- 13-byte header payload: width 1, height 1, bit depth 8, greyscale,
compression 0, filter 0, interlace 0. -/
def hdrGrey1x1 : List Nat := [0, 0, 0, 1, 0, 0, 0, 1, 8, 0, 0, 0, 0]

/-- 13-byte header payload: width 2, height 3, bit depth 8, greyscale. -/
def hdrGrey2x3 : List Nat := [0, 0, 0, 2, 0, 0, 0, 3, 8, 0, 0, 0, 0]

/-- The zlib stream produced by compressing the two bytes
`[0x00, 0x00]` (default settings): `78 9c 63 60 00 00 00 02 00 01`. -/
def zlibTwoZeroBytes : List Nat := [120, 156, 99, 96, 0, 0, 0, 2, 0, 1]

/-- Modelled from the spec: the external Decompression Adapter
(§4.5, the zlib reader, out of scope of the repository), pinned to
the single behavior needed by the end-to-end scenario: inflating
`zlibTwoZeroBytes` yields `[0x00, 0x00]`. -/
def inflateTwoZeroBytes : List Nat → Option (List Nat) :=
  fun s => if s = zlibTwoZeroBytes then some [0, 0] else none

/-- The claim C1 datastream with the image-data payload `c`:
signature, header (1×1 greyscale, bit depth 8), one image-data chunk,
terminator, all with correct checksums. -/
def c1Stream (c : List Nat) : List Nat :=
  pngSignature ++
    (frame ChunkIHDR.slug hdrGrey1x1 ++ (frame ChunkIDAT.slug c ++ frame ChunkIEND.slug []))

/-- Modelled from the spec: the external Decompression Adapter
(§4.5), pinned to one behavior: inflating the compressed body
`[1, 2, 3]` yields the four bytes `[9, 8, 7, 6]`. -/
def inflateSplitTest : List Nat → Option (List Nat) :=
  fun s => if s = [1, 2, 3] then some [9, 8, 7, 6] else none

/-- Header + the compressed body `[1, 2, 3]` carried by a single
image-data chunk + terminator (no signature: `ParseChunkStream`
starts after it). -/
def streamOneIdat : List Nat :=
  frame ChunkIHDR.slug hdrGrey1x1 ++ (frame ChunkIDAT.slug [1, 2, 3] ++ frame ChunkIEND.slug [])

/-- The same chunks, but the identical compressed body `[1, 2, 3]`
split across two image-data chunks `[1, 2]` and `[3]`. -/
def streamTwoIdat : List Nat :=
  frame ChunkIHDR.slug hdrGrey1x1 ++
    (frame ChunkIDAT.slug [1, 2] ++ (frame ChunkIDAT.slug [3] ++ frame ChunkIEND.slug []))

/-- Modelled from the spec: the external Decompression Adapter
(§4.5), pinned to one behavior: inflating the compressed body `[5]`
yields the two bytes `[0, 9]`. -/
def inflateTiny : List Nat → Option (List Nat) :=
  fun s => if s = [5] then some [0, 9] else none

/-- A complete valid datastream (signature, header, one image-data
chunk with body `[5]`, terminator) containing no gamma chunk. -/
def streamNoGamma : List Nat :=
  pngSignature ++
    (frame ChunkIHDR.slug hdrGrey1x1 ++ (frame ChunkIDAT.slug [5] ++ frame ChunkIEND.slug []))

/-- A chunk stream in which an image-data chunk precedes the header
chunk (then terminator). -/
def streamIdatFirst : List Nat :=
  frame ChunkIDAT.slug [4, 5] ++ (frame ChunkIHDR.slug hdrGrey1x1 ++ frame ChunkIEND.slug [])

/-- A chunk stream containing the header chunk twice (1×1 then 2×3),
then the terminator. -/
def streamTwoHeaders : List Nat :=
  frame ChunkIHDR.slug hdrGrey1x1 ++ (frame ChunkIHDR.slug hdrGrey2x3 ++ frame ChunkIEND.slug [])

/-! ## Basic lemmas: lengths, big-endian round trip, CRC bounds -/

theorem take_app {n : Nat} {a b : List Nat} (h : a.length = n) : (a ++ b).take n = a := by
  subst h; exact List.take_left a b

theorem drop_app {n : Nat} {a b : List Nat} (h : a.length = n) : (a ++ b).drop n = b := by
  subst h; exact List.drop_left a b

theorem u32be_length (n : Nat) : (u32be n).length = 4 := rfl

theorem beU32_u32be {n : Nat} (h : n < 2 ^ 32) : beU32 (u32be n) = n := by
  simp only [beU32, u32be, List.foldl]
  omega

theorem crcStep_lt {c : Nat} (h : c < 2 ^ 32) : crcStep c < 2 ^ 32 := by
  unfold crcStep
  split
  · exact Nat.xor_lt_two_pow (by norm_num) (by omega)
  · omega

theorem crcTableEntry_lt {c : Nat} (h : c < 2 ^ 32) : crcTableEntry c < 2 ^ 32 := by
  unfold crcTableEntry
  exact crcStep_lt (crcStep_lt (crcStep_lt (crcStep_lt
    (crcStep_lt (crcStep_lt (crcStep_lt (crcStep_lt h)))))))

theorem crcUpdate_lt {c : Nat} (b : Nat) (h : c < 2 ^ 32) : crcUpdate c b < 2 ^ 32 := by
  unfold crcUpdate
  exact Nat.xor_lt_two_pow (crcTableEntry_lt (by have := Nat.mod_lt (Nat.xor c b) (show 0 < 256 by norm_num); omega)) (by omega)

theorem crcLoop_lt (bs : List Nat) : ∀ {c : Nat}, c < 2 ^ 32 → crcLoop c bs < 2 ^ 32 := by
  induction bs with
  | nil => intro c h; exact h
  | cons b bs ih => intro c h; exact ih (crcUpdate_lt b h)

theorem crc32_lt (data : List Nat) : crc32 data < 2 ^ 32 := by
  unfold crc32
  exact Nat.xor_lt_two_pow (crcLoop_lt data (by norm_num)) (by norm_num)

/-! ## Symbolic execution of the framing reader on a wire chunk -/

theorem readChunk_frameWith (tag data rest : List Nat) (stored : Nat)
    (htag : tag.length = 4) (hlen : data.length < 2 ^ 32) (hs : stored < 2 ^ 32) :
    readChunk (frameWith tag data stored ++ rest) =
      if (FromString tag).2 = true then .error (.unknownChunkType tag)
      else if crc32 (tag ++ data) = stored then
        .ok (⟨data.length, (FromString tag).1, data, crc32 (tag ++ data)⟩, rest)
      else .error (.checksumMismatch stored (crc32 (tag ++ data))) := by
  unfold readChunk frameWith
  simp only [List.append_assoc]
  simp only [take_app, drop_app, u32be_length, htag, List.length_append, beU32_u32be, hlen, hs,
    List.replicate, List.append_nil, Nat.sub_self]
  split_ifs <;> first | rfl | omega | simp_all

theorem readChunk_frame (tag data rest : List Nat)
    (htag : tag.length = 4) (hkn : (FromString tag).2 = false) (hlen : data.length < 2 ^ 32) :
    readChunk (frame tag data ++ rest) =
      .ok (⟨data.length, (FromString tag).1, data, crc32 (tag ++ data)⟩, rest) := by
  rw [frame, readChunk_frameWith tag data rest _ htag hlen (crc32_lt _)]
  simp [hkn]

/-! ## Symbolic execution of the assembler loop, one chunk at a time -/

theorem parseLoop_IHDR (fuel : Nat) (d rest : List Nat) (st : LoopSt) (h13 : d.length = 13) :
    parseLoop (fuel + 1) (frame ChunkIHDR.slug d ++ rest) st =
      parseLoop fuel rest { st with ihdr := parsedIHDR d } := by
  simp only [parseLoop, readChunk_frame ChunkIHDR.slug d rest rfl rfl (by omega),
    show (FromString ChunkIHDR.slug).1 = ChunkIHDR from rfl]
  simp [HandleIHDR, h13]

theorem parseLoop_IDAT (fuel : Nat) (d rest : List Nat) (st : LoopSt) (hlen : d.length < 2 ^ 32) :
    parseLoop (fuel + 1) (frame ChunkIDAT.slug d ++ rest) st =
      parseLoop fuel rest { st with idat := st.idat ++ d, idatLen := d.length } := by
  simp only [parseLoop, readChunk_frame ChunkIDAT.slug d rest rfl rfl hlen,
    show (FromString ChunkIDAT.slug).1 = ChunkIDAT from rfl]
  simp [ChunkIHDR, ChunkIDAT, ChunkType.mk.injEq]

theorem parseLoop_gAMA (fuel : Nat) (d rest : List Nat) (st : LoopSt) (h4 : d.length = 4) :
    parseLoop (fuel + 1) (frame ChunkgAMA.slug d ++ rest) st =
      parseLoop fuel rest { st with gamma := some ⟨beU32 d⟩ } := by
  simp only [parseLoop, readChunk_frame ChunkgAMA.slug d rest rfl rfl (by omega),
    show (FromString ChunkgAMA.slug).1 = ChunkgAMA from rfl]
  simp [ParseGAMA, h4, ChunkIHDR, ChunkIDAT, ChunkgAMA, ChunkType.mk.injEq]

theorem parseLoop_IEND (fuel : Nat) (rest : List Nat) (st : LoopSt) :
    parseLoop (fuel + 1) (frame ChunkIEND.slug [] ++ rest) st = .ok st := by
  rw [parseLoop, readChunk_frame ChunkIEND.slug [] rest rfl rfl (by norm_num)]
  rfl

/-! ## GF(2)-linearity of the CRC-32 register update, and single-bit
error detection -/

theorem xor_left_comm (a b c : Nat) : a ^^^ (b ^^^ c) = b ^^^ (a ^^^ c) := by
  rw [← Nat.xor_assoc, Nat.xor_comm a b, Nat.xor_assoc]

theorem xor_mod_pow (a b n : Nat) : (a ^^^ b) % 2 ^ n = a % 2 ^ n ^^^ b % 2 ^ n := by
  apply Nat.eq_of_testBit_eq
  intro i
  simp [Nat.testBit_mod_two_pow, Nat.testBit_xor, Bool.and_xor_distrib_left]

theorem xor_div_pow (a b n : Nat) : (a ^^^ b) / 2 ^ n = a / 2 ^ n ^^^ b / 2 ^ n := by
  apply Nat.eq_of_testBit_eq
  intro i
  simp [← Nat.shiftRight_eq_div_pow, Nat.testBit_shiftRight, Nat.testBit_xor]

theorem xor_mod2 (a b : Nat) : (a ^^^ b) % 2 = a % 2 ^^^ b % 2 := by
  have := xor_mod_pow a b 1
  simpa using this

theorem xor_div2 (a b : Nat) : (a ^^^ b) / 2 = a / 2 ^^^ b / 2 := by
  have := xor_div_pow a b 1
  simpa using this

theorem xor_mod256 (a b : Nat) : (a ^^^ b) % 256 = a % 256 ^^^ b % 256 := by
  have := xor_mod_pow a b 8
  simpa using this

theorem xor_div256 (a b : Nat) : (a ^^^ b) / 256 = a / 256 ^^^ b / 256 := by
  have := xor_div_pow a b 8
  simpa using this

theorem crcStep_xor (a b : Nat) : crcStep (a ^^^ b) = crcStep a ^^^ crcStep b := by
  unfold crcStep
  rcases Nat.mod_two_eq_zero_or_one a with ha | ha <;>
    rcases Nat.mod_two_eq_zero_or_one b with hb | hb <;>
      simp [xor_mod2, xor_div2, ha, hb, Nat.xor_self, Nat.xor_zero, Nat.zero_xor,
        Nat.xor_assoc, Nat.xor_comm, xor_left_comm]
  all_goals
    intro h
    exact absurd h (by omega)

theorem crcTableEntry_xor (a b : Nat) :
    crcTableEntry (a ^^^ b) = crcTableEntry a ^^^ crcTableEntry b := by
  unfold crcTableEntry
  simp only [crcStep_xor]

theorem crcUpdate_xor (c d b : Nat) :
    crcUpdate (c ^^^ d) b =
      crcUpdate c b ^^^ (crcTableEntry (d % 256) ^^^ d / 256) := by
  unfold crcUpdate
  rw [show c ^^^ d ^^^ b = c ^^^ b ^^^ d by
        simp [Nat.xor_assoc, Nat.xor_comm, xor_left_comm],
    xor_mod256, crcTableEntry_xor, xor_div256]
  simp [Nat.xor_assoc, Nat.xor_comm, xor_left_comm]

theorem crcTableEntry_high : ∀ j, j < 256 → crcTableEntry j < 2 ^ 24 → j = 0 := by decide

theorem crcTableEntry_ne_zero {e : Nat} (h0 : e ≠ 0) (hlt : e < 256) :
    crcTableEntry e ≠ 0 := by
  intro h
  exact h0 (crcTableEntry_high e hlt (by rw [h]; norm_num))

theorem flipStep_ne (d : Nat) (h0 : d ≠ 0) (hlt : d < 2 ^ 32) :
    crcTableEntry (d % 256) ^^^ d / 256 ≠ 0 := by
  intro h
  rw [Nat.xor_eq_zero] at h
  have hj : d % 256 < 256 := Nat.mod_lt d (by norm_num)
  have hd : d / 256 < 2 ^ 24 := by omega
  have hz : d % 256 = 0 := crcTableEntry_high (d % 256) hj (by omega)
  rw [hz] at h
  have h0' : crcTableEntry 0 = 0 := by decide
  omega

theorem flipStep_lt (d : Nat) (hlt : d < 2 ^ 32) :
    crcTableEntry (d % 256) ^^^ d / 256 < 2 ^ 32 := by
  exact Nat.xor_lt_two_pow
    (crcTableEntry_lt (lt_trans (Nat.mod_lt d (by norm_num)) (by norm_num))) (by omega)

theorem crcLoop_xor_ne (bs : List Nat) :
    ∀ c d, d ≠ 0 → d < 2 ^ 32 → crcLoop (c ^^^ d) bs ≠ crcLoop c bs := by
  induction bs with
  | nil =>
    intro c d h0 _ h
    simp only [crcLoop] at h
    apply h0
    have h2 : c ^^^ (c ^^^ d) = c ^^^ c := congrArg (fun t => c ^^^ t) h
    rwa [← Nat.xor_assoc, Nat.xor_self, Nat.zero_xor] at h2
  | cons b bs ih =>
    intro c d h0 hlt
    simp only [crcLoop, crcUpdate_xor]
    exact ih (crcUpdate c b) _ (flipStep_ne d h0 hlt) (flipStep_lt d hlt)

theorem crcLoop_append (xs ys : List Nat) :
    ∀ c, crcLoop c (xs ++ ys) = crcLoop (crcLoop c xs) ys := by
  induction xs with
  | nil => intro c; rfl
  | cons b bs ih => intro c; simp only [List.cons_append, crcLoop]; exact ih _

theorem crc32_flipBit_ne (xs ys : List Nat) (b k : Nat) (hk : k < 8) :
    crc32 (xs ++ (b ^^^ 2 ^ k) :: ys) ≠ crc32 (xs ++ b :: ys) := by
  have hek : (2 : Nat) ^ k < 256 :=
    lt_of_lt_of_le (Nat.pow_lt_pow_right (by norm_num) hk) (by norm_num)
  unfold crc32
  intro h
  have h2 : crcLoop 0xFFFFFFFF (xs ++ (b ^^^ 2 ^ k) :: ys) =
      crcLoop 0xFFFFFFFF (xs ++ b :: ys) := by
    have := congrArg (fun t => t ^^^ 0xFFFFFFFF) h
    simpa [Nat.xor_assoc, Nat.xor_self, Nat.xor_zero] using this
  rw [crcLoop_append, crcLoop_append] at h2
  simp only [crcLoop] at h2
  have hupd : crcUpdate (crcLoop 0xFFFFFFFF xs) (b ^^^ 2 ^ k) =
      crcUpdate (crcLoop 0xFFFFFFFF xs) b ^^^ crcTableEntry (2 ^ k) := by
    unfold crcUpdate
    rw [show crcLoop 0xFFFFFFFF xs ^^^ (b ^^^ 2 ^ k) =
          crcLoop 0xFFFFFFFF xs ^^^ b ^^^ 2 ^ k by simp [Nat.xor_assoc],
      xor_mod256, crcTableEntry_xor, Nat.mod_eq_of_lt hek]
    simp [Nat.xor_assoc, Nat.xor_comm, xor_left_comm]
  rw [hupd] at h2
  exact crcLoop_xor_ne ys (crcUpdate (crcLoop 0xFFFFFFFF xs) b) (crcTableEntry (2 ^ k))
    (crcTableEntry_ne_zero (by positivity) hek)
    (crcTableEntry_lt (lt_trans hek (by norm_num))) h2

theorem crc32_flip_list_ne (pre t dr : List Nat) (g k : Nat) (hk : k < 8) :
    crc32 (pre ++ (t ++ (g ^^^ 2 ^ k) :: dr)) ≠ crc32 (pre ++ (t ++ g :: dr)) := by
  rw [← List.append_assoc, ← List.append_assoc]
  exact crc32_flipBit_ne (pre ++ t) dr g k hk

/-- C2: the framing reader accepts a well-formed chunk framing (4-byte
recognized tag, correctly sized data, 4-byte big-endian stored
checksum) if and only if CRC-32 over `tag ++ data` equals the stored
value; on mismatch it fails with `checksumMismatch` carrying both the
stored and the computed value; and flipping any single bit of the
data while keeping the original checksum is always rejected. -/
theorem c2_readChunk_crc_validation (tag data rest : List Nat) (stored : Nat)
    (htag : tag.length = 4) (hkn : (FromString tag).2 = false)
    (hlen : data.length < 2 ^ 32) (hs : stored < 2 ^ 32) :
    (readChunk (frameWith tag data stored ++ rest) =
        .ok (⟨data.length, (FromString tag).1, data, crc32 (tag ++ data)⟩, rest) ↔
      crc32 (tag ++ data) = stored) ∧
    (crc32 (tag ++ data) ≠ stored →
      readChunk (frameWith tag data stored ++ rest) =
        .error (.checksumMismatch stored (crc32 (tag ++ data)))) ∧
    (∀ i k, i < data.length → k < 8 →
      readChunk (frameWith tag (flipBit data i k) (crc32 (tag ++ data)) ++ rest) =
        .error (.checksumMismatch (crc32 (tag ++ data)) (crc32 (tag ++ flipBit data i k)))) := by
  have hbase := readChunk_frameWith tag data rest stored htag hlen hs
  simp only [hkn, Bool.false_eq_true, if_false] at hbase
  refine ⟨⟨fun hok => ?_, fun hc => by rw [hbase, if_pos hc]⟩,
    fun hne => by rw [hbase, if_neg hne], fun i k hi hk => ?_⟩
  · by_contra hne
    rw [hbase, if_neg hne] at hok
    exact absurd hok (by simp)
  · have hflen : (flipBit data i k).length < 2 ^ 32 := by
      rw [flipBit, List.length_set]; exact hlen
    have hbase2 := readChunk_frameWith tag (flipBit data i k) rest (crc32 (tag ++ data))
      htag hflen (crc32_lt _)
    simp only [hkn, Bool.false_eq_true, if_false] at hbase2
    have hset : flipBit data i k =
        data.take i ++ (data.getD i 0 ^^^ 2 ^ k) :: data.drop (i + 1) :=
      List.set_eq_take_cons_drop _ hi
    have hdata : data = data.take i ++ data.getD i 0 :: data.drop (i + 1) := by
      rw [List.getD_eq_getElem data 0 hi]
      conv_lhs => rw [← List.take_append_drop i data]
      rw [List.drop_eq_getElem_cons hi]
    have hne : crc32 (tag ++ flipBit data i k) ≠ crc32 (tag ++ data) := by
      rw [hset]
      conv in tag ++ data => rw [hdata]
      exact crc32_flip_list_ne tag _ _ _ k hk
    rw [hbase2, if_neg hne]

/-- C2 witness: a concrete correctly checksummed `tEXt` chunk is
accepted, and the same framing with bit 3 of data byte 0 flipped (and
the original stored checksum) is rejected with `checksumMismatch`. -/
theorem c2_readChunk_crc_validation_witness :
    readChunk (frameWith ChunktEXt.slug [1, 2] (crc32 (ChunktEXt.slug ++ [1, 2])) ++ []) =
        .ok (⟨2, ChunktEXt, [1, 2], crc32 (ChunktEXt.slug ++ [1, 2])⟩, []) ∧
    readChunk (frameWith ChunktEXt.slug (flipBit [1, 2] 0 3) (crc32 (ChunktEXt.slug ++ [1, 2])) ++ []) =
        .error (.checksumMismatch (crc32 (ChunktEXt.slug ++ [1, 2]))
          (crc32 (ChunktEXt.slug ++ flipBit [1, 2] 0 3))) :=
  ⟨(c2_readChunk_crc_validation ChunktEXt.slug [1, 2] [] (crc32 (ChunktEXt.slug ++ [1, 2]))
      rfl rfl (by norm_num) (crc32_lt _)).1.mpr rfl,
    (c2_readChunk_crc_validation ChunktEXt.slug [1, 2] [] (crc32 (ChunktEXt.slug ++ [1, 2]))
      rfl rfl (by norm_num) (crc32_lt _)).2.2 0 3 (by norm_num) (by norm_num)⟩

/-! ## Stream-level helpers -/

theorem IsPng_append (rest : List Nat) : IsPng (pngSignature ++ rest) = .ok true := by
  unfold IsPng
  rw [show (pngSignature ++ rest).length = 8 + rest.length by simp [pngSignature]; omega,
    take_app (show pngSignature.length = 8 from rfl)]
  rw [if_neg (by omega), if_neg (by omega), if_neg (by simp)]

theorem parseLoop_hdr_idat_end (fuel : Nat) (hfuel : 3 ≤ fuel) (hdr d : List Nat)
    (h13 : hdr.length = 13) (hd : d.length < 2 ^ 32) (st : LoopSt) :
    parseLoop fuel
        (frame ChunkIHDR.slug hdr ++ (frame ChunkIDAT.slug d ++ frame ChunkIEND.slug [])) st =
      .ok { st with ihdr := parsedIHDR hdr, idat := st.idat ++ d, idatLen := d.length } := by
  obtain ⟨f, rfl⟩ : ∃ f, fuel = f + 3 := ⟨fuel - 3, by omega⟩
  rw [show f + 3 = f + 2 + 1 from rfl, parseLoop_IHDR _ _ _ _ h13,
    show f + 2 = f + 1 + 1 from rfl, parseLoop_IDAT _ _ _ _ hd,
    show frame ChunkIEND.slug [] = frame ChunkIEND.slug [] ++ [] from (List.append_nil _).symm,
    parseLoop_IEND]

theorem ParseChunkStream_eq (inflate : List Nat → Option (List Nat))
    (gApply : Nat → Nat → Nat → Nat) (l : List Nat) :
    ParseChunkStream inflate gApply l =
      match parseLoop (l.length + 1) l initSt with
      | .error e => .error e
      | .ok st =>
        match trimStage st inflate with
        | .error e => .error e
        | .ok pixels => finishStage st pixels gApply := rfl

theorem trimmedPixels_eq (inflate : List Nat → Option (List Nat)) (l : List Nat) :
    trimmedPixels inflate l =
      match parseLoop (l.length + 1) l initSt with
      | .error e => .error e
      | .ok st => trimStage st inflate := rfl

/-- C1: on the exact datastream of the end-to-end scenario —
signature, header (width 1, height 1, bit depth 8, greyscale, no
compression/filter/interlace), one image-data chunk whose payload is
any zlib encoding of the two bytes `[0x00, 0x00]` (every such
encoding is longer than 2 bytes), and a terminator, all correctly
checksummed — the decoder does not return a 1×1 image: it panics
slicing `pixels[len(pixels)-idat_len:]`, because the inflated output
(2 bytes) is shorter than the last image-data chunk's length. -/
theorem c1_decode_1x1_grey_panics (inflate : List Nat → Option (List Nat))
    (gApply : Nat → Nat → Nat → Nat) (c : List Nat)
    (hc : inflate c = some [0, 0]) (hgt : 2 < c.length) (hlt : c.length < 2 ^ 32) :
    decodePng inflate gApply (c1Stream c) = .error (.panicSliceBounds c.length 2) := by
  unfold decodePng c1Stream
  rw [IsPng_append, drop_app (show pngSignature.length = 8 from rfl)]
  rw [ParseChunkStream_eq]
  rw [parseLoop_hdr_idat_end _ (by simp [frame, frameWith, u32be]) hdrGrey1x1 c rfl hlt initSt]
  simp only [trimStage, initSt, List.nil_append]
  rw [hc]
  simp only []
  rw [if_neg (by simp; omega)]
  rfl

/-- C1 witness: the concrete datastream with the actual zlib bytes
`78 9c 63 60 00 00 00 02 00 01` of `[0x00, 0x00]` panics with the
slice-bounds error (10 = compressed length, 2 = inflated length). -/
theorem c1_decode_1x1_grey_panics_witness :
    decodePng inflateTwoZeroBytes gApplyArb (c1Stream zlibTwoZeroBytes) =
      .error (.panicSliceBounds 10 2) :=
  c1_decode_1x1_grey_panics inflateTwoZeroBytes gApplyArb zlibTwoZeroBytes rfl
    (by norm_num [zlibTwoZeroBytes]) (by norm_num [zlibTwoZeroBytes])

/-- C3: the bytes handed past decompression are *not* the complete
inflated output, and they depend on how the same compressed body is
split across image-data chunks: with the single chunk `[1,2,3]` the
decoder hands on `[8,7,6]`, with the split `[1,2]`/`[3]` it hands on
`[6]`, although the inflated output of the concatenated body is
`[9,8,7,6]` in both cases (the code keeps only the trailing
`len(last IDAT)` bytes). -/
theorem c3_trim_depends_on_split :
    trimmedPixels inflateSplitTest streamOneIdat = .ok [8, 7, 6] ∧
    trimmedPixels inflateSplitTest streamTwoIdat = .ok [6] ∧
    inflateSplitTest [1, 2, 3] = some [9, 8, 7, 6] :=
  ⟨rfl, rfl, rfl⟩

/-- C4: a complete valid datastream with no gamma chunk does not
decode: `ParseChunkStream` calls `gamma.HandlegAMA` on the nil
`gamma` pointer, a nil-pointer dereference panic — for every
instantiation of the external gamma transfer function. -/
theorem c4_no_gamma_chunk_panics (gApply : Nat → Nat → Nat → Nat) :
    decodePng inflateTiny gApply streamNoGamma = .error .panicNilGamma := by
  unfold decodePng streamNoGamma
  rw [IsPng_append, drop_app (show pngSignature.length = 8 from rfl)]
  rw [ParseChunkStream_eq]
  rw [parseLoop_hdr_idat_end _ (by simp [frame, frameWith, u32be]) hdrGrey1x1 [5] rfl
    (by norm_num) initSt]
  rfl

/-- C5 counterexample: the assembler loop accepts a stream whose
image-data chunk precedes the header chunk, and a stream with two
header chunks (the second simply overwriting the first); neither is
rejected — there is no ordering check and no `OrderingViolation`
error site in the code. -/
theorem c5_bad_order_accepted :
    parseLoop (streamIdatFirst.length + 1) streamIdatFirst initSt =
      .ok ⟨[4, 5], parsedIHDR hdrGrey1x1, none, 2⟩ ∧
    parseLoop (streamTwoHeaders.length + 1) streamTwoHeaders initSt =
      .ok ⟨[], parsedIHDR hdrGrey2x3, none, 0⟩ :=
  ⟨rfl, rfl⟩

/-- C5 amended: the decoder enforces no chunk ordering: the loop
dispatches chunks in whatever order they arrive — an image-data chunk
arriving before the header is accumulated normally and the header is
parsed when it arrives, and a second header chunk overwrites the
first; the loop runs to the terminator and succeeds in both cases. -/
theorem c5_no_ordering_enforcement (fuel : Nat) (hfuel : 3 ≤ fuel)
    (hdrA hdrB d : List Nat) (h13a : hdrA.length = 13) (h13b : hdrB.length = 13)
    (hd : d.length < 2 ^ 32) (st : LoopSt) :
    parseLoop fuel
        (frame ChunkIDAT.slug d ++ (frame ChunkIHDR.slug hdrA ++ frame ChunkIEND.slug [])) st =
      .ok { st with idat := st.idat ++ d, idatLen := d.length, ihdr := parsedIHDR hdrA } ∧
    parseLoop fuel
        (frame ChunkIHDR.slug hdrA ++ (frame ChunkIHDR.slug hdrB ++ frame ChunkIEND.slug [])) st =
      .ok { st with ihdr := parsedIHDR hdrB } := by
  obtain ⟨f, rfl⟩ : ∃ f, fuel = f + 3 := ⟨fuel - 3, by omega⟩
  constructor
  · rw [show f + 3 = f + 2 + 1 from rfl, parseLoop_IDAT _ _ _ _ hd,
      show f + 2 = f + 1 + 1 from rfl, parseLoop_IHDR _ _ _ _ h13a,
      show frame ChunkIEND.slug [] = frame ChunkIEND.slug [] ++ [] from (List.append_nil _).symm,
      parseLoop_IEND]
  · rw [show f + 3 = f + 2 + 1 from rfl, parseLoop_IHDR _ _ _ _ h13a,
      show f + 2 = f + 1 + 1 from rfl, parseLoop_IHDR _ _ _ _ h13b,
      show frame ChunkIEND.slug [] = frame ChunkIEND.slug [] ++ [] from (List.append_nil _).symm,
      parseLoop_IEND]

/-- C5 witness: the amended theorem evaluated at fuel 3, the concrete
headers and the data `[4, 5]`, starting from the initial state. -/
theorem c5_no_ordering_enforcement_witness :
    parseLoop 3 (frame ChunkIDAT.slug [4, 5] ++
        (frame ChunkIHDR.slug hdrGrey1x1 ++ frame ChunkIEND.slug [])) initSt =
      .ok { initSt with idat := [4, 5], idatLen := 2, ihdr := parsedIHDR hdrGrey1x1 } ∧
    parseLoop 3 (frame ChunkIHDR.slug hdrGrey1x1 ++
        (frame ChunkIHDR.slug hdrGrey2x3 ++ frame ChunkIEND.slug [])) initSt =
      .ok { initSt with ihdr := parsedIHDR hdrGrey2x3 } :=
  c5_no_ordering_enforcement 3 (by norm_num) hdrGrey1x1 hdrGrey2x3 [4, 5] rfl rfl
    (by norm_num) initSt

/-- C6 counterexample: for the unrecognized tag "abCD" — an
*ancillary* tag (lowercase first byte) — classification returns
`Unknown` *together with an error*, and the framing reader aborts the
decode instead of skipping the chunk: decoding does not continue. -/
theorem c6_unknown_ancillary_rejected :
    FromString [97, 98, 67, 68] = (Unknown, true) ∧
    readChunk (frame [97, 98, 67, 68] [] ++ []) =
      .error (.unknownChunkType [97, 98, 67, 68]) :=
  ⟨rfl, rfl⟩

/-- C6 amended: classification is a total function that returns the
distinguished `Unknown` value for every unrecognized 4-byte tag, but
pairs it with an error; the framing reader treats that error as fatal
for *every* unknown chunk — ancillary (lowercase first byte) and
critical (uppercase first byte) alike — with the same
unknown-chunk-type error; there is no skip-and-continue and no
separate `UnsupportedCriticalChunk` error. -/
theorem FromString_cases (tag : List Nat) :
    FromString tag = (Unknown, true) ∨ (FromString tag).2 = false := by
  unfold FromString
  by_cases h0 : tag = ChunkIHDR.slug
  · rw [if_pos h0]; exact Or.inr rfl
  rw [if_neg h0]
  by_cases h1 : tag = ChunkPLTE.slug
  · rw [if_pos h1]; exact Or.inr rfl
  rw [if_neg h1]
  by_cases h2 : tag = ChunkIDAT.slug
  · rw [if_pos h2]; exact Or.inr rfl
  rw [if_neg h2]
  by_cases h3 : tag = ChunkIEND.slug
  · rw [if_pos h3]; exact Or.inr rfl
  rw [if_neg h3]
  by_cases h4 : tag = ChunkcHRM.slug
  · rw [if_pos h4]; exact Or.inr rfl
  rw [if_neg h4]
  by_cases h5 : tag = ChunkgAMA.slug
  · rw [if_pos h5]; exact Or.inr rfl
  rw [if_neg h5]
  by_cases h6 : tag = ChunkiCCP.slug
  · rw [if_pos h6]; exact Or.inr rfl
  rw [if_neg h6]
  by_cases h7 : tag = ChunksBIT.slug
  · rw [if_pos h7]; exact Or.inr rfl
  rw [if_neg h7]
  by_cases h8 : tag = ChunksRGB.slug
  · rw [if_pos h8]; exact Or.inr rfl
  rw [if_neg h8]
  by_cases h9 : tag = ChunkbKGD.slug
  · rw [if_pos h9]; exact Or.inr rfl
  rw [if_neg h9]
  by_cases h10 : tag = ChunkhIST.slug
  · rw [if_pos h10]; exact Or.inr rfl
  rw [if_neg h10]
  by_cases h11 : tag = ChunktRNS.slug
  · rw [if_pos h11]; exact Or.inr rfl
  rw [if_neg h11]
  by_cases h12 : tag = ChunkpHYs.slug
  · rw [if_pos h12]; exact Or.inr rfl
  rw [if_neg h12]
  by_cases h13 : tag = ChunksPLT.slug
  · rw [if_pos h13]; exact Or.inr rfl
  rw [if_neg h13]
  by_cases h14 : tag = ChunktIME.slug
  · rw [if_pos h14]; exact Or.inr rfl
  rw [if_neg h14]
  by_cases h15 : tag = ChunkiTXt.slug
  · rw [if_pos h15]; exact Or.inr rfl
  rw [if_neg h15]
  by_cases h16 : tag = ChunktEXt.slug
  · rw [if_pos h16]; exact Or.inr rfl
  rw [if_neg h16]
  by_cases h17 : tag = ChunkzTXt.slug
  · rw [if_pos h17]; exact Or.inr rfl
  rw [if_neg h17]
  exact Or.inl rfl

theorem c6_unknown_always_aborts (tag data rest : List Nat) (stored : Nat)
    (htag : tag.length = 4) (hunk : (FromString tag).2 = true)
    (hlen : data.length < 2 ^ 32) (hs : stored < 2 ^ 32) :
    (FromString tag).1 = Unknown ∧
    readChunk (frameWith tag data stored ++ rest) = .error (.unknownChunkType tag) := by
  constructor
  · rcases FromString_cases tag with h | h
    · rw [h]
    · rw [hunk] at h
      exact absurd h (by simp)
  · rw [readChunk_frameWith tag data rest stored htag hlen hs, if_pos hunk]

/-- C6 witness: the amended theorem at the ancillary unknown tag
"abCD" with data `[1]` and stored checksum 0. -/
theorem c6_unknown_always_aborts_witness :
    (FromString [97, 98, 67, 68]).1 = Unknown ∧
    readChunk (frameWith [97, 98, 67, 68] [1] 0 ++ []) =
      .error (.unknownChunkType [97, 98, 67, 68]) :=
  c6_unknown_always_aborts [97, 98, 67, 68] [1] [] 0 rfl rfl (by norm_num) (by norm_num)

/-- C7 counterexample: a 13-byte header payload with bit depth 3 and
color type 2 — an illegal pairing that the claim says is rejected —
is accepted by `HandleIHDR`. -/
theorem c7_bitdepth3_accepted :
    HandleIHDR ⟨13, ChunkIHDR, [0, 0, 0, 1, 0, 0, 0, 1, 3, 2, 0, 0, 0], 0⟩ =
      .ok ⟨1, 1, 3, 2, 0, 0, 0⟩ := rfl

/-- C7 amended: header-chunk parsing fails (with the invalid-header
length error) if and only if the payload length is not exactly 13
bytes — so 12- and 14-byte payloads are rejected — but the
bit-depth/color-type pairing is never validated: any 13-byte payload
is parsed, whatever its bit depth and color type. -/
theorem c7_handleIHDR_length_only (ck : Chunk) :
    (ck.Data.length = 13 → HandleIHDR ck = .ok (parsedIHDR ck.Data)) ∧
    (ck.Data.length ≠ 13 → HandleIHDR ck = .error (.invalidIHDRLength ck.Data.length)) := by
  constructor
  · intro h; rw [HandleIHDR, if_neg (by omega)]
  · intro h; rw [HandleIHDR, if_pos h]

/-- C7 witness: 12- and 14-byte payloads are rejected, a 13-byte one
(width 2, height 3) is parsed. -/
theorem c7_handleIHDR_length_only_witness :
    HandleIHDR ⟨12, ChunkIHDR, List.replicate 12 0, 0⟩ = .error (.invalidIHDRLength 12) ∧
    HandleIHDR ⟨14, ChunkIHDR, List.replicate 14 0, 0⟩ = .error (.invalidIHDRLength 14) ∧
    HandleIHDR ⟨13, ChunkIHDR, hdrGrey2x3, 0⟩ = .ok (parsedIHDR hdrGrey2x3) :=
  ⟨(c7_handleIHDR_length_only ⟨12, ChunkIHDR, List.replicate 12 0, 0⟩).2 (by norm_num),
    (c7_handleIHDR_length_only ⟨14, ChunkIHDR, List.replicate 14 0, 0⟩).2 (by norm_num),
    (c7_handleIHDR_length_only ⟨13, ChunkIHDR, hdrGrey2x3, 0⟩).1 rfl⟩

/-- C9: the greyscale output is *not* row-major-correct: the code
calls `SetGray(r, c, ...)` although the parameters of `SetGray` are
`(x, y)` = (column, row).  For the 2×1 image with samples `[7, 9]`
the sample at row 0, column 1 (linear index 1, value 9) never appears
— the out-of-bounds write is silently dropped and the pixel stays 0;
for the 2×2 image with samples `[1, 2, 3, 4]` the result is the
transpose `[1, 3, 2, 4]` instead of `[1, 2, 3, 4]`. -/
theorem c9_greyscale_transposed :
    (handleGreyscale [7, 9] 2 1).pix = [7, 0] ∧
    (handleGreyscale [1, 2, 3, 4] 2 2).pix = [1, 3, 2, 4] :=
  ⟨rfl, rfl⟩

/-- C10: `CreateImage` returns a nil image and a nil error for color
types 2, 3, 4 and 6; it returns an error exactly when the color type
is outside `{0, 2, 3, 4, 6}`; and only color type 0 yields a
populated image (the greyscale handler's output). -/
theorem c10_createImage_color_types (pixels : List Nat) (ihdr : IHDR) :
    (ihdr.ColorType = 2 ∨ ihdr.ColorType = 3 ∨ ihdr.ColorType = 4 ∨ ihdr.ColorType = 6 →
      CreateImage pixels ihdr = .ok none) ∧
    (ihdr.ColorType ≠ 0 → ihdr.ColorType ≠ 2 → ihdr.ColorType ≠ 3 → ihdr.ColorType ≠ 4 →
      ihdr.ColorType ≠ 6 → CreateImage pixels ihdr = .error (.invalidColorType ihdr.ColorType)) ∧
    (ihdr.ColorType = 0 →
      CreateImage pixels ihdr = .ok (some (handleGreyscale pixels ihdr.Width ihdr.Height))) := by
  refine ⟨fun h => ?_, fun h0 h2 h3 h4 h6 => ?_, fun h0 => ?_⟩
  · rcases h with h | h | h | h <;> rw [CreateImage] <;> simp [h]
  · rw [CreateImage, if_neg h0, if_neg h2, if_neg h3, if_neg h4, if_neg h6]
  · rw [CreateImage, if_pos h0]

/-- C10 witness: color type 2 gives a nil image with no error, color
type 7 an error, color type 0 a populated greyscale image. -/
theorem c10_createImage_color_types_witness :
    CreateImage [3] ⟨1, 1, 8, 2, 0, 0, 0⟩ = .ok none ∧
    CreateImage [3] ⟨1, 1, 8, 7, 0, 0, 0⟩ = .error (.invalidColorType 7) ∧
    CreateImage [3] ⟨1, 1, 8, 0, 0, 0, 0⟩ = .ok (some (handleGreyscale [3] 1 1)) :=
  ⟨(c10_createImage_color_types [3] ⟨1, 1, 8, 2, 0, 0, 0⟩).1 (Or.inl rfl),
    (c10_createImage_color_types [3] ⟨1, 1, 8, 7, 0, 0, 0⟩).2.1 (by norm_num) (by norm_num)
      (by norm_num) (by norm_num) (by norm_num),
    (c10_createImage_color_types [3] ⟨1, 1, 8, 0, 0, 0, 0⟩).2.2 rfl⟩

/-! ## Round trip of the spec-modelled scanline filtering -/

theorem getD_lt_of_forall {l : List Nat} (h : ∀ b ∈ l, b < 256) (i : Nat) :
    l.getD i 0 < 256 := by
  by_cases hi : i < l.length
  · rw [List.getD_eq_getElem l 0 hi]
    exact h _ (List.getElem_mem hi)
  · rw [List.getD_eq_default l 0 (by omega)]
    norm_num

theorem paeth_mem (a b c : Nat) : paeth a b c = a ∨ paeth a b c = b ∨ paeth a b c = c := by
  simp only [paeth]
  split_ifs <;> tauto

theorem leftByte_lt {l : List Nat} (h : ∀ b ∈ l, b < 256) (bpp x : Nat) :
    leftByte l bpp x < 256 := by
  unfold leftByte
  split
  · norm_num
  · exact getD_lt_of_forall h _

theorem predByte_lt (ft bpp x : Nat) (prior cur : List Nat)
    (hp : ∀ b ∈ prior, b < 256) (hc : ∀ b ∈ cur, b < 256) :
    predByte ft bpp prior cur x < 256 := by
  unfold predByte
  split_ifs
  · norm_num
  · exact leftByte_lt hc bpp x
  · exact getD_lt_of_forall hp x
  · have h1 := leftByte_lt hc bpp x
    have h2 := getD_lt_of_forall hp x
    omega
  · rcases paeth_mem (leftByte cur bpp x) (prior.getD x 0) (leftByte prior bpp x) with h | h | h <;>
      rw [h]
    · exact leftByte_lt hc bpp x
    · exact getD_lt_of_forall hp x
    · exact leftByte_lt hp bpp x

theorem getD_take (l : List Nat) (m j : Nat) (hj : j < m) :
    (l.take m).getD j 0 = l.getD j 0 := by
  by_cases h : j < l.length
  · have h2 : j < (l.take m).length := by
      rw [List.length_take]; omega
    rw [List.getD_eq_getElem _ 0 h2, List.getD_eq_getElem _ 0 h, List.getElem_take]
  · rw [List.getD_eq_default _ 0 (by rw [List.length_take]; omega),
      List.getD_eq_default _ 0 (by omega)]

theorem predByte_take (ft bpp : Nat) (prior raw : List Nat) (m : Nat) (hbpp : 1 ≤ bpp) :
    predByte ft bpp prior (raw.take m) m = predByte ft bpp prior raw m := by
  have hL : leftByte (raw.take m) bpp m = leftByte raw bpp m := by
    unfold leftByte
    split
    · rfl
    · exact getD_take raw m (m - bpp) (by omega)
  unfold predByte
  rw [hL]

theorem defilterGo_filterRow (ft bpp : Nat) (prior raw : List Nat) (hbpp : 1 ≤ bpp)
    (hraw : ∀ b ∈ raw, b < 256) (hprior : ∀ b ∈ prior, b < 256) :
    ∀ k m, m + k = raw.length →
      defilterGo ft bpp prior (raw.take m) ((filterRow ft bpp prior raw).drop m) = raw := by
  have hflen : (filterRow ft bpp prior raw).length = raw.length := by
    simp [filterRow]
  intro k
  induction k with
  | zero =>
    intro m hm
    have hm' : m = raw.length := by omega
    subst hm'
    rw [List.take_length, show (filterRow ft bpp prior raw).drop raw.length = [] by
      rw [← hflen]; exact List.drop_length _]
    rfl
  | succ k ih =>
    intro m hm
    have hmlt : m < raw.length := by omega
    have hm2 : m < (filterRow ft bpp prior raw).length := by omega
    rw [List.drop_eq_getElem_cons hm2]
    have hget : (filterRow ft bpp prior raw)[m] =
        (raw.getD m 0 + 256 - predByte ft bpp prior raw m) % 256 := by
      simp [filterRow]
    rw [hget, defilterGo]
    have hreclen : (raw.take m).length = m := by
      rw [List.length_take]; omega
    rw [hreclen, predByte_take ft bpp prior raw m hbpp]
    have hpred : predByte ft bpp prior raw m < 256 := predByte_lt ft bpp m prior raw hprior hraw
    have hrawm : raw.getD m 0 < 256 := getD_lt_of_forall hraw m
    rw [show ((raw.getD m 0 + 256 - predByte ft bpp prior raw m) % 256 +
        predByte ft bpp prior raw m) % 256 = raw.getD m 0 by omega]
    rw [show raw.take m ++ [raw.getD m 0] = raw.take (m + 1) by
      rw [List.getD_eq_getElem raw 0 hmlt, ← List.concat_eq_append]
      exact List.take_concat_get raw m hmlt]
    exact ih (m + 1) (by omega)

/-- C8: for every filter type 0–4 (None, Sub, Up, Average, Paeth),
every left-lookup distance `bpp ≥ 1`, every previous reconstructed
row, and every raw scanline of byte values (covering lengths 1,
`1 + bpp`, and arbitrary stride, with an all-zero previous row for
row 0), filtering the raw row and then defiltering the resulting
scanline (filter-type byte followed by the filtered bytes) reproduces
the raw row exactly. -/
theorem c8_filter_defilter_roundtrip (ft bpp : Nat) (prior raw : List Nat)
    (hft : ft ≤ 4) (hbpp : 1 ≤ bpp)
    (hraw : ∀ b ∈ raw, b < 256) (hprior : ∀ b ∈ prior, b < 256) :
    defilterScanline bpp prior (ft :: filterRow ft bpp prior raw) = .ok raw := by
  have h0 := defilterGo_filterRow ft bpp prior raw hbpp hraw hprior raw.length 0 (by omega)
  rw [List.take_zero, List.drop_zero] at h0
  show (if ft ≤ 4 then Except.ok (defilterGo ft bpp prior [] (filterRow ft bpp prior raw))
      else Except.error (Err.invalidFilterType ft)) = Except.ok raw
  rw [if_pos hft, h0]

/-- C8 witness: the Paeth rule (type 4) with `bpp = 1`, the all-zero
previous row of a row 0, and the raw scanline `[1, 2, 3]`. -/
theorem c8_filter_defilter_roundtrip_witness :
    defilterScanline 1 [0, 0, 0] (4 :: filterRow 4 1 [0, 0, 0] [1, 2, 3]) = .ok [1, 2, 3] :=
  c8_filter_defilter_roundtrip 4 1 [0, 0, 0] [1, 2, 3] (by norm_num) (by norm_num)
    (by decide) (by decide)

/-- C4 witness: the panic at the arbitrary instantiation of the
external gamma transfer parameter. -/
theorem c4_no_gamma_chunk_panics_witness :
    decodePng inflateTiny gApplyArb streamNoGamma = .error .panicNilGamma :=
  c4_no_gamma_chunk_panics gApplyArb
